import Mathlib

/-!
Shallow embedding of the VidPalAI podcast-editing pipeline.

Each definition mirrors one Python function of the repository:

* `src/podcast_editor/finishing_pass.py` — `generate_flattened_fcpxml`,
  `run_finishing_pass` (timeline stitching and FCPXML serialization);
* `src/podcast_editor/director_pass.py` / `producer_pass.py` —
  `run_director_pass` main loop and `format_multicam_local_context`;
* `src/speaker_identification.py` — `create_speaker_role_mapping` and the
  diarization fallback logic of `identify_speakers`;
* `src/audio_p.py` — `get_speaker_at_time`;
* `src/rag_agent.py` — `load_and_prepare_documents`.

Times (Python floats) are modelled as rationals; Python dicts that are
built by insertion and read by key are modelled as association lists with
pairwise-distinct keys; Python's stable `list.sort` / `sorted` is modelled
by the stable `List.insertionSort`.
-/

namespace VidPal

/-- Python `int()` applied to a rational: truncation toward zero. -/
def pyInt (q : ℚ) : ℤ := if q < 0 then ⌈q⌉ else ⌊q⌋

/-- A cut as stored in `director_edits.json`: keys `start_time`,
`end_time`, `camera_id`. -/
structure PyCut where
  start_time : ℚ
  end_time : ℚ
  camera_id : String
deriving DecidableEq, Repr

/-- The key-based comparison used by `full_edl.sort(key=lambda x: x['start_time'])`. -/
def cutLE (a b : PyCut) : Prop := a.start_time ≤ b.start_time

instance : DecidableRel cutLE := fun a b => inferInstanceAs (Decidable (a.start_time ≤ b.start_time))

instance : IsTotal PyCut cutLE := ⟨fun a b => le_total a.start_time b.start_time⟩

instance : IsTrans PyCut cutLE := ⟨fun _ _ _ h1 h2 => le_trans h1 h2⟩

/-- `run_finishing_pass`, stitching step (finishing_pass.py lines 138–142):
each entry of `director_edits` contributes its `edl.cuts` list when both
keys are present (modelled as `some cuts`), the lists are concatenated in
order, and the result is sorted (stably) by `start_time`. -/
def stitchCuts (director_edits : List (Option (List PyCut))) : List PyCut :=
  ((director_edits.filterMap id).flatten).insertionSort cutLE

/-- `FRAME_RATE = 30` (finishing_pass.py line 15). -/
def FRAME_RATE : ℤ := 30

/-- The rational-timecode strings `f"{frames}/{FRAME_RATE}s"` emitted by
`generate_flattened_fcpxml`. -/
def rationalStr (frames : ℤ) : String := s!"{frames}/{FRAME_RATE}s"

/-- An `<asset>` element of the emitted FCPXML (id, name, duration). -/
structure AssetXml where
  id : String
  name : String
  duration : String
deriving DecidableEq, Repr

/-- A `<clip>` element of the emitted FCPXML.  `ref` is the asset id looked
up from the camera id (`None` models the `KeyError` path, which cannot
occur for cuts whose camera is a declared source). -/
structure ClipXml where
  name : String
  offset : String
  duration : String
  ref : Option String
deriving DecidableEq, Repr

/-- The parts of the emitted FCPXML document that carry timing data:
the sequence duration, the asset list and the clip spine. -/
structure FcpXml where
  sequenceDuration : String
  assets : List AssetXml
  clips : List ClipXml
deriving DecidableEq, Repr

/-- `SOURCE_VIDEOS` (finishing_pass.py lines 10–14), as an ordered
association list. -/
def SOURCE_VIDEOS : List (String × String) :=
  [("cam_host", "input/cam_host.mp4"),
   ("cam_guest", "input/cam_guest.mp4"),
   ("cam_wide", "input/cam_wide.mp4")]

/-- The `asset_ids` dict built in `generate_flattened_fcpxml`:
camera `i` (0-based enumeration order) gets asset id `r{i+2}`. -/
def asset_ids (video_sources : List (String × String)) : List (String × String) :=
  video_sources.enum.map (fun p => let aid := p.1 + 2; (p.2.1, s!"r{aid}"))

/-- `generate_flattened_fcpxml` (finishing_pass.py lines 20–123), restricted
to the timing-relevant content.  `total_duration_seconds` is
`full_edl[-1]['end_time'] if full_edl else 0`; every rational timecode is
`f"{int(t * FRAME_RATE)}/{FRAME_RATE}s"`. -/
def generate_flattened_fcpxml (full_edl : List PyCut)
    (video_sources : List (String × String)) : FcpXml :=
  let total_duration_seconds : ℚ :=
    match full_edl.getLast? with
    | some c => c.end_time
    | none => 0
  let total_duration_rational := rationalStr (pyInt (total_duration_seconds * (FRAME_RATE : ℚ)))
  let ids := asset_ids video_sources
  let assets := ids.map (fun p =>
    { id := p.2, name := p.1, duration := total_duration_rational : AssetXml })
  let clips := full_edl.map (fun cut =>
    { name := cut.camera_id
      offset := rationalStr (pyInt (cut.start_time * (FRAME_RATE : ℚ)))
      duration := rationalStr (pyInt ((cut.end_time - cut.start_time) * (FRAME_RATE : ℚ)))
      ref := (ids.lookup cut.camera_id) : ClipXml })
  { sequenceDuration := total_duration_rational, assets := assets, clips := clips }

/-- `run_finishing_pass` (finishing_pass.py lines 125–155): stitch the
chapter edit lists, abort with no output file when no cuts were found,
otherwise emit the flattened FCPXML. -/
def run_finishing_pass (director_edits : List (Option (List PyCut)))
    (video_sources : List (String × String)) : Option FcpXml :=
  let full_edl := stitchCuts director_edits
  if full_edl = [] then none
  else some (generate_flattened_fcpxml full_edl video_sources)

/-- The `{"cuts": [...]}` object the director pass expects the oracle's
JSON output to parse into. -/
structure EdlJson where
  cuts : List PyCut
deriving DecidableEq, Repr

/-- One entry appended to `final_edits` by `run_director_pass`. -/
structure ChapterEditEntry where
  chapter_title : String
  edl : EdlJson
deriving DecidableEq, Repr

/-- The main loop of `run_director_pass` (director_pass.py lines 82–137,
producer_pass.py lines 103–188), abstracted over the oracle: each chapter
is paired with the parse result of the oracle's output for it (`none` when
`json.loads`/the API call raises).  On success the parsed EDL is appended
unchanged; on failure the loop `continue`s with no entry appended. -/
def run_director_pass_loop (oracle_results : List (String × Option EdlJson)) :
    List ChapterEditEntry :=
  oracle_results.filterMap (fun p => p.2.map (fun e => { chapter_title := p.1, edl := e }))

/-- A speaker segment as produced by `identify_speakers`
(speaker_identification.py lines 182–192): keys `speaker_id`, `start`,
`end`, `text`. -/
structure SpeakerSeg where
  speaker_id : String
  start : ℚ
  «end» : ℚ
  text : String
deriving DecidableEq, Repr

/-- The `defaultdict(float)` accumulation step of
`create_speaker_role_mapping`: add `d` to the entry of key `k`, inserting
the key at the end (Python dict insertion order) when absent. -/
def addDur : List (String × ℚ) → String → ℚ → List (String × ℚ)
  | [], k, d => [(k, d)]
  | (k', v) :: rest, k, d =>
    if k' = k then (k', v + d) :: rest else (k', v) :: addDur rest k d

/-- `speaker_durations` (speaker_identification.py lines 240–243): total
`end - start` per `speaker_id`, keys in first-appearance order. -/
def speaker_durations (speaker_segments : List SpeakerSeg) : List (String × ℚ) :=
  speaker_segments.foldl (fun acc seg => addDur acc seg.speaker_id (seg.«end» - seg.start)) []

/-- The comparison of `sorted(speaker_durations.items(), key=lambda x: x[1],
reverse=True)`: stable descending order by total duration. -/
def durGE (a b : String × ℚ) : Prop := b.2 ≤ a.2

instance : DecidableRel durGE := fun a b => inferInstanceAs (Decidable (b.2 ≤ a.2))

instance : IsTotal (String × ℚ) durGE := ⟨fun a b => le_total b.2 a.2⟩

instance : IsTrans (String × ℚ) durGE := ⟨fun _ _ _ h1 h2 => le_trans h2 h1⟩

/-- `sorted_speakers` (speaker_identification.py lines 246–248). -/
def sorted_speakers (speaker_segments : List SpeakerSeg) : List (String × ℚ) :=
  (speaker_durations speaker_segments).insertionSort durGE

/-- The role assigned to the speaker of 0-based rank `i`
(speaker_identification.py lines 250–265): rank 0 is `"host"`, rank 1 is
`"guest"`, rank `i ≥ 2` is `f"speaker_{i+1}"` (the loop enumerates
`sorted_speakers[2:]` with `start=3`). -/
def roleName (i : ℕ) : String :=
  if i = 0 then "host"
  else if i = 1 then "guest"
  else "speaker_" ++ toString (i + 1)

/-- Assign `roleName` by position, starting at rank `i`. -/
def assign_roles : ℕ → List (String × ℚ) → List (String × String)
  | _, [] => []
  | i, p :: rest => (p.1, roleName i) :: assign_roles (i + 1) rest

/-- `create_speaker_role_mapping` (speaker_identification.py lines 235–267):
the `role_mapping` dict, with keys in rank order. -/
def create_speaker_role_mapping (speaker_segments : List SpeakerSeg) :
    List (String × String) :=
  assign_roles 0 (sorted_speakers speaker_segments)

/-- `get_speaker_at_time` (audio_p.py lines 59–67): scan the segments in
list order, return the mapped role (or the raw id when unmapped) of the
first segment whose closed interval contains the timestamp, else
`"unknown"`. -/
def get_speaker_at_time (timestamp : ℚ) (speaker_segments : List SpeakerSeg)
    (role_mapping : List (String × String)) : String :=
  match speaker_segments.find? (fun seg => decide (seg.start ≤ timestamp ∧ timestamp ≤ seg.«end»)) with
  | some seg => (role_mapping.lookup seg.speaker_id).getD seg.speaker_id
  | none => "unknown"

/-- The speaker-count hint passed to the diarization engine by
`_call_diarizer` (speaker_identification.py lines 78–99): either an exact
`num_speakers` or a `(min_speakers, max_speakers)` range. -/
inductive DiarizeHint where
  | exact (n : ℕ)
  | range (mn mx : ℕ)
deriving DecidableEq, Repr

/-- A segment of the assigned transcription; `speaker` is `none` when the
`"speaker"` key is absent (then `seg.get("speaker", "SPEAKER_00")`
defaults it). -/
structure AssignedSeg where
  speaker : Option String
  start : ℚ
  «end» : ℚ
deriving DecidableEq, Repr

/-- `EXPECTED_SPEAKERS = 4` (speaker_identification.py line 23). -/
def EXPECTED_SPEAKERS : ℕ := 4

/-- `MIN_SPEAKERS = 2` (line 24). -/
def MIN_SPEAKERS : ℕ := 2

/-- `MAX_SPEAKERS = 6` (line 25). -/
def MAX_SPEAKERS : ℕ := 6

/-- `FALLBACK_MIN_SPEAKERS = 2` (line 26). -/
def FALLBACK_MIN_SPEAKERS : ℕ := 2

/-- `FALLBACK_MAX_SPEAKERS = 8` (line 27). -/
def FALLBACK_MAX_SPEAKERS : ℕ := 8

/-- `len({seg.get("speaker", "SPEAKER_00") for seg in segments})`
(speaker_identification.py line 160): the number of distinct speaker
labels. -/
def uniqueSpeakers (segments : List AssignedSeg) : ℕ :=
  ((segments.map (fun s => s.speaker.getD "SPEAKER_00")).dedup).length

/-- `_call_diarizer` (speaker_identification.py lines 78–99) on an engine
supporting both hint forms: an exact `num_speakers` is preferred when the
expected count is declared, else the `(min, max)` range is passed. -/
def call_diarizer (engine : DiarizeHint → List AssignedSeg)
    (expected_speakers : Option ℕ) (min_speakers max_speakers : ℕ) : List AssignedSeg :=
  match expected_speakers with
  | some n => engine (DiarizeHint.exact n)
  | none => engine (DiarizeHint.range min_speakers max_speakers)

/-- The diarization step of `identify_speakers` (speaker_identification.py
lines 147–175), abstracted over the engine (the composition of the
diarizer and `assign_word_speakers`): one first attempt with the
configured hints, and exactly one fallback re-invocation with the widened
`(FALLBACK_MIN_SPEAKERS, FALLBACK_MAX_SPEAKERS)` range when the first
attempt yields at most one distinct speaker label.  The second component
counts the engine invocations made. -/
def diarizeWithFallback (engine : DiarizeHint → List AssignedSeg) :
    List AssignedSeg × ℕ :=
  let first := call_diarizer engine (some EXPECTED_SPEAKERS) MIN_SPEAKERS MAX_SPEAKERS
  if uniqueSpeakers first ≤ 1 then
    (call_diarizer engine none FALLBACK_MIN_SPEAKERS FALLBACK_MAX_SPEAKERS, 2)
  else
    (first, 1)

/-- An entry of the audio log: keys `word`, `start`, `end`. -/
structure WordItem where
  word : String
  start : ℚ
  «end» : ℚ
deriving DecidableEq, Repr

/-- An entry of the video log: keys `timestamp`, `description`, and (in the
producer pass) an optional `shows_person`. -/
structure VideoItem where
  timestamp : ℚ
  description : String
  shows_person : Option String
deriving DecidableEq, Repr

/-- The visual-cue selection of `format_multicam_local_context`
(producer_pass.py lines 59–68, director_pass.py lines 41–47): for one
camera's video log, the entries contributing a cue line are exactly those
with `start_time <= item['timestamp'] < end_time`, in log order. -/
def selectedVisuals (start_time end_time : ℚ) (video_log : List VideoItem) :
    List VideoItem :=
  video_log.filter (fun item => decide (start_time ≤ item.timestamp ∧ item.timestamp < end_time))

/-- `CHUNK_DURATION_SECONDS = 10.0` (rag_agent.py line 22). -/
def CHUNK_DURATION_SECONDS : ℚ := 10

/-- `range(0, n, 10)` over the integers: the multiples of 10 in `[0, n)`. -/
def pyRange10 (n : ℤ) : List ℤ :=
  if n ≤ 0 then []
  else (List.range (((n - 1) / 10).toNat + 1)).map (fun (k : ℕ) => 10 * (k : ℤ))

/-- The words of one bucket (rag_agent.py line 48): those with
`start_time <= item['start'] < end_time`. -/
def words_in_chunk (audio_log : List WordItem) (start_time : ℤ) (end_time : ℚ) :
    List String :=
  (audio_log.filter (fun item =>
    decide ((start_time : ℚ) ≤ item.start ∧ item.start < end_time))).map (fun item => item.word)

/-- `relevant_descriptions` (rag_agent.py line 51): the descriptions of the
video-log entries with `timestamp <= start_time`, in log order. -/
def relevant_descriptions (video_log : List VideoItem) (start_time : ℤ) :
    List String :=
  (video_log.filter (fun item => decide (item.timestamp ≤ (start_time : ℚ)))).map
    (fun item => item.description)

/-- The `memory_text` f-string of rag_agent.py line 55. -/
def mkMemoryText (start_time : ℤ) (visual_context transcript_chunk : String) : String :=
  s!"[Time: ~{start_time}s]\n[VISUAL: {visual_context}]\n[TRANSCRIPT: {transcript_chunk}]"

/-- A LlamaIndex document chunk: the text and the metadata. -/
structure RagDocument where
  text : String
  start_time : ℤ
  end_time : ℚ
deriving DecidableEq, Repr

/-- One iteration of the bucketing loop of `load_and_prepare_documents`
(rag_agent.py lines 45–62): the bucket gathers the words starting inside
`[start, start + CHUNK_DURATION_SECONDS)` and the last description at or
before `start` (`"No visual data."` when none exists), and a document is
emitted only when the transcript chunk is non-empty. -/
def chunkDoc? (audio_log : List WordItem) (video_log : List VideoItem)
    (start_time : ℤ) : Option RagDocument :=
  let end_time : ℚ := (start_time : ℚ) + CHUNK_DURATION_SECONDS
  let transcript_chunk := String.intercalate " " (words_in_chunk audio_log start_time end_time)
  let visual_context := ((relevant_descriptions video_log start_time).getLast?).getD "No visual data."
  if transcript_chunk = "" then none
  else some { text := mkMemoryText start_time visual_context transcript_chunk
              start_time := start_time
              end_time := end_time }

/-- The bucketing logic of `load_and_prepare_documents` (rag_agent.py lines
24–65): buckets start at the multiples of 10 below `int(total_duration)`,
`total_duration` being the last word's `end` (an empty audio log yields no
documents, rag_agent.py line 39). -/
def load_and_prepare_documents (audio_log : List WordItem)
    (video_log : List VideoItem) : List RagDocument :=
  match audio_log.getLast? with
  | none => []
  | some lastWord =>
    (pyRange10 (pyInt lastWord.«end»)).filterMap (chunkDoc? audio_log video_log)

/-! ## Helper lemmas -/

theorem pyInt_nonneg_bounds {q : ℚ} (h : 0 ≤ q) :
    (pyInt q : ℚ) ≤ q ∧ q < pyInt q + 1 := by
  unfold pyInt
  rw [if_neg (not_lt.mpr h)]
  constructor
  · exact_mod_cast Int.floor_le q
  · exact_mod_cast Int.lt_floor_add_one q

theorem pairwise_getLast?_max {α : Type} {R : α → α → Prop} :
    ∀ {l : List α} {v : α}, l.Pairwise R → l.getLast? = some v → ∀ u ∈ l, u = v ∨ R u v := by
  intro l
  induction l with
  | nil => intro v _ h u hu; cases hu
  | cons a t ih =>
    intro v hp hl u hu
    cases t with
    | nil =>
      simp only [List.getLast?_singleton, Option.some.injEq] at hl
      rw [List.mem_singleton] at hu
      exact Or.inl (hu.trans hl)
    | cons b t' =>
      rw [List.getLast?_cons_cons] at hl
      have hv : v ∈ b :: t' := List.mem_of_getLast?_eq_some hl
      rcases List.mem_cons.mp hu with rfl | hu'
      · exact Or.inr ((List.pairwise_cons.mp hp).1 v hv)
      · exact ih (List.pairwise_cons.mp hp).2 hl u hu'

/-! ## Claim C1: the Timeline Stitcher -/

/-- Claim C1, counterexample: the stitcher performs no linear scan checking
`cuts[i].end <= cuts[i+1].start`, and the timeline it emits can violate
that invariant: stitching the single chapter cut list
`[(0,5,cam_wide),(1,2,cam_host)]` yields a sorted timeline whose adjacent
pair overlaps (`5 > 1`), and the finishing pass still emits an output
file for it. -/
theorem c1_counterexample :
    stitchCuts [some [⟨0, 5, "cam_wide"⟩, ⟨1, 2, "cam_host"⟩]] =
      [⟨0, 5, "cam_wide"⟩, ⟨1, 2, "cam_host"⟩] ∧
    ¬ List.Chain' (fun a b => a.end_time ≤ b.start_time)
        (stitchCuts [some [⟨0, 5, "cam_wide"⟩, ⟨1, 2, "cam_host"⟩]]) ∧
    (run_finishing_pass [some [⟨0, 5, "cam_wide"⟩, ⟨1, 2, "cam_host"⟩]] SOURCE_VIDEOS).isSome = true := by
  have h : stitchCuts [some [⟨0, 5, "cam_wide"⟩, ⟨1, 2, "cam_host"⟩]] =
      [⟨0, 5, "cam_wide"⟩, ⟨1, 2, "cam_host"⟩] := by decide
  refine ⟨h, ?_, ?_⟩
  · rw [h]
    simp [List.chain'_cons]
  · rw [run_finishing_pass, h]
    decide

/-- Claim C1, amended: the Timeline Stitcher concatenates the cut lists of
the chapters that carry one (in chapter order) and sorts the result by
`start_time`; the emitted global timeline is a permutation of that
concatenation ordered by `start_time`, but no adjacent-pair non-overlap
scan is performed and `cuts[i].end <= cuts[i+1].start` is not guaranteed. -/
theorem c1_amended_stitcher_sorts (director_edits : List (Option (List PyCut))) :
    (stitchCuts director_edits).Pairwise cutLE ∧
    (stitchCuts director_edits).Perm ((director_edits.filterMap id).flatten) := by
  constructor
  · exact List.sorted_insertionSort cutLE _
  · exact List.perm_insertionSort cutLE _

/-! ## Claim C3: the Cut Planner performs no validation or repair -/

/-- Claim C3, counterexample: the director pass freezes the oracle's parsed
cut list unchanged.  The proposal `[(0,1,"x"),(1,8,"y")]` under the 2 s
minimum is stored as-is — it is not merged into `[(0,8,"y")]` — and its
first cut's duration `1 - 0` is below the 2 s minimum. -/
theorem c3_counterexample :
    run_director_pass_loop [("ch", some ⟨[⟨0, 1, "x"⟩, ⟨1, 8, "y"⟩]⟩)] =
      [⟨"ch", ⟨[⟨0, 1, "x"⟩, ⟨1, 8, "y"⟩]⟩⟩] ∧
    run_director_pass_loop [("ch", some ⟨[⟨0, 1, "x"⟩, ⟨1, 8, "y"⟩]⟩)] ≠
      [⟨"ch", ⟨[⟨0, 8, "y"⟩]⟩⟩] ∧
    (⟨0, 1, "x"⟩ : PyCut).end_time - (⟨0, 1, "x"⟩ : PyCut).start_time < 2 := by
  refine ⟨by decide, by decide, by norm_num⟩

/-- Claim C3, amended: the Cut Planner applies no minimum-duration
validation or repair to the decision oracle's proposal: every successfully
parsed cut list is appended to the persisted edits exactly as returned,
deterministically, whatever cut durations it contains. -/
theorem c3_amended_no_repair (pre post : List (String × Option EdlJson))
    (title : String) (e : EdlJson) :
    run_director_pass_loop (pre ++ (title, some e) :: post) =
      run_director_pass_loop pre ++ ⟨title, e⟩ :: run_director_pass_loop post := by
  simp [run_director_pass_loop, List.filterMap_append]

/-! ## Claim C4: the Context Window Builder has no latest-before fallback -/

/-- Claim C4, counterexample: an interval containing no sampled frame
yields no visual cue at all, even though a `FrameEvent` at or before the
interval start exists: with one event at `t = 5` and the interval
`(10, 20)`, the selection is empty rather than falling back to that
event. -/
theorem c4_counterexample :
    selectedVisuals 10 20 [⟨5, "frame at 5s", none⟩] = [] ∧
    (⟨5, "frame at 5s", none⟩ : VideoItem).timestamp ≤ 10 := by
  refine ⟨by decide, by norm_num⟩

/-- Claim C4, amended: for every interval and camera stream the Context
Window Builder includes exactly the `FrameEvent`s with
`start <= timestamp < end`; when no event falls in the interval the
camera's visual cue list is empty — there is no fallback to the most
recent event at or before `start`. -/
theorem c4_amended_window_only (s e : ℚ) (video_log : List VideoItem) (f : VideoItem) :
    (f ∈ selectedVisuals s e video_log ↔
      f ∈ video_log ∧ s ≤ f.timestamp ∧ f.timestamp < e) ∧
    ((∀ g ∈ video_log, ¬(s ≤ g.timestamp ∧ g.timestamp < e)) →
      selectedVisuals s e video_log = []) := by
  constructor
  · simp [selectedVisuals, List.mem_filter]
  · intro h
    rw [selectedVisuals, List.filter_eq_nil_iff]
    intro g hg
    simpa using h g hg

/-- Witness for `c4_amended_window_only`: an event inside the interval is
selected, and a stream whose only event lies after the interval yields an
empty selection. -/
theorem c4_amended_window_only_witness :
    (⟨15, "d", none⟩ : VideoItem) ∈ selectedVisuals 10 20 [⟨15, "d", none⟩] ∧
    selectedVisuals 10 20 [⟨25, "d", none⟩] = [] := by
  constructor
  · exact (c4_amended_window_only 10 20 [⟨15, "d", none⟩] ⟨15, "d", none⟩).1.mpr
      ⟨by decide, by norm_num, by norm_num⟩
  · exact (c4_amended_window_only 10 20 [⟨25, "d", none⟩] ⟨25, "d", none⟩).2
      (by intro g hg; simp at hg; subst hg; norm_num)

/-! ## Claim C6: a failed chapter is excluded, the rest are unaffected -/

/-- Claim C6: when the oracle's output for a chapter cannot be parsed, the
director pass appends no entry for that chapter and the surrounding
chapters' entries are exactly those it would produce without it; and the
stitcher merges only the entries that carry a well-formed cut list, so an
entry without one contributes nothing to the global timeline. -/
theorem c6_failed_chapter_excluded (pre post : List (String × Option EdlJson))
    (title : String) (e1 e2 : List (Option (List PyCut))) :
    run_director_pass_loop (pre ++ (title, (none : Option EdlJson)) :: post) =
      run_director_pass_loop pre ++ run_director_pass_loop post ∧
    stitchCuts (e1 ++ (none : Option (List PyCut)) :: e2) = stitchCuts (e1 ++ e2) := by
  constructor
  · simp [run_director_pass_loop, List.filterMap_append]
  · simp [stitchCuts, List.filterMap_append]

/-! ## Claim C7: the diarization fallback retry -/

/-- Claim C7: the first diarization attempt (made with the exact
`EXPECTED_SPEAKERS` hint) is accepted without any retry when it yields
more than one distinct speaker label; when it collapses to at most one,
the engine is re-invoked exactly once with the widened
`(FALLBACK_MIN_SPEAKERS, FALLBACK_MAX_SPEAKERS)` range before the result
is accepted; at most two engine invocations ever occur. -/
theorem c7_diarization_fallback (engine : DiarizeHint → List AssignedSeg) :
    (diarizeWithFallback engine).2 ≤ 2 ∧
    (1 < uniqueSpeakers (engine (DiarizeHint.exact EXPECTED_SPEAKERS)) →
      diarizeWithFallback engine = (engine (DiarizeHint.exact EXPECTED_SPEAKERS), 1)) ∧
    (uniqueSpeakers (engine (DiarizeHint.exact EXPECTED_SPEAKERS)) ≤ 1 →
      diarizeWithFallback engine =
        (engine (DiarizeHint.range FALLBACK_MIN_SPEAKERS FALLBACK_MAX_SPEAKERS), 2)) := by
  have hfirst : call_diarizer engine (some EXPECTED_SPEAKERS) MIN_SPEAKERS MAX_SPEAKERS =
      engine (DiarizeHint.exact EXPECTED_SPEAKERS) := rfl
  have hsecond : call_diarizer engine none FALLBACK_MIN_SPEAKERS FALLBACK_MAX_SPEAKERS =
      engine (DiarizeHint.range FALLBACK_MIN_SPEAKERS FALLBACK_MAX_SPEAKERS) := rfl
  rw [diarizeWithFallback, hfirst, hsecond]
  refine ⟨?_, ?_, ?_⟩
  · split <;> simp
  · intro h
    rw [if_neg (by omega)]
  · intro h
    rw [if_pos h]

/-- Witness for `c7_diarization_fallback`: an engine whose first attempt
finds two speakers is accepted after one invocation, and an engine whose
first attempt collapses to one speaker triggers the widened retry. -/
theorem c7_diarization_fallback_witness :
    diarizeWithFallback (fun _ => [⟨some "S0", 0, 1⟩, ⟨some "S1", 1, 2⟩]) =
      ([⟨some "S0", 0, 1⟩, ⟨some "S1", 1, 2⟩], 1) ∧
    diarizeWithFallback (fun h => match h with
      | DiarizeHint.exact _ => [⟨some "S0", 0, 1⟩]
      | DiarizeHint.range _ _ => [⟨some "S0", 0, 1⟩, ⟨some "S1", 1, 2⟩]) =
      ([⟨some "S0", 0, 1⟩, ⟨some "S1", 1, 2⟩], 2) := by
  constructor
  · exact (c7_diarization_fallback (fun _ => [⟨some "S0", 0, 1⟩, ⟨some "S1", 1, 2⟩])).2.1
      (by decide)
  · exact (c7_diarization_fallback _).2.2 (by decide)

/-! ## Claim C2: rational timecodes truncate, they do not round -/

/-- Claim C2, counterexample: a cut starting at `t = 1.016 = 127/125`
seconds is serialized with offset `"30/30s"`, not the claimed `"31/30s"`;
and the emitted value is `int(t * frame_rate)`, which differs from
nearest-frame rounding, e.g. at `t = 0.99` where truncation gives 29
frames and rounding gives 30. -/
theorem c2_counterexample :
    (generate_flattened_fcpxml [⟨127/125, 2, "cam_host"⟩] SOURCE_VIDEOS).clips.map
        (fun c => c.offset) = ["30/30s"] ∧
    ("30/30s" : String) ≠ "31/30s" ∧
    pyInt ((99 : ℚ)/100 * (FRAME_RATE : ℚ)) ≠ round ((99 : ℚ)/100 * (FRAME_RATE : ℚ)) := by
  refine ⟨?_, by decide, ?_⟩
  · norm_num [generate_flattened_fcpxml, rationalStr, pyInt, FRAME_RATE]
    rfl
  · rw [round_eq]
    norm_num [pyInt, FRAME_RATE]

/-- Claim C2, amended: every time value `t` serialized by the flattened
interchange output is emitted as the fraction
`int(t * frame_rate) / frame_rate` — truncation toward zero, not
nearest-frame rounding — with denominator `FRAME_RATE`; for non-negative
times the emitted frame count is within one frame below the exact value.
In particular `t = 1.016 s` at frame rate 30 serializes as `30/30s`. -/
theorem c2_amended_truncating_timecode (full_edl : List PyCut)
    (video_sources : List (String × String)) (i : ℕ) (cut : PyCut)
    (hc : full_edl[i]? = some cut) (h0 : 0 ≤ cut.start_time)
    (h1 : cut.start_time ≤ cut.end_time) :
    ∃ clip : ClipXml,
      (generate_flattened_fcpxml full_edl video_sources).clips[i]? = some clip ∧
      clip.offset = rationalStr (pyInt (cut.start_time * (FRAME_RATE : ℚ))) ∧
      (pyInt (cut.start_time * (FRAME_RATE : ℚ)) : ℚ) ≤ cut.start_time * (FRAME_RATE : ℚ) ∧
      cut.start_time * (FRAME_RATE : ℚ) < pyInt (cut.start_time * (FRAME_RATE : ℚ)) + 1 ∧
      clip.duration = rationalStr (pyInt ((cut.end_time - cut.start_time) * (FRAME_RATE : ℚ))) ∧
      (pyInt ((cut.end_time - cut.start_time) * (FRAME_RATE : ℚ)) : ℚ) ≤
        (cut.end_time - cut.start_time) * (FRAME_RATE : ℚ) ∧
      (cut.end_time - cut.start_time) * (FRAME_RATE : ℚ) <
        pyInt ((cut.end_time - cut.start_time) * (FRAME_RATE : ℚ)) + 1 := by
  have hframe : (0 : ℚ) ≤ (FRAME_RATE : ℚ) := by norm_num [FRAME_RATE]
  have hb1 := pyInt_nonneg_bounds (mul_nonneg h0 hframe)
  have hb2 := pyInt_nonneg_bounds (mul_nonneg (sub_nonneg.mpr h1) hframe)
  refine ⟨{ name := cut.camera_id
            offset := rationalStr (pyInt (cut.start_time * (FRAME_RATE : ℚ)))
            duration := rationalStr (pyInt ((cut.end_time - cut.start_time) * (FRAME_RATE : ℚ)))
            ref := ((asset_ids video_sources).lookup cut.camera_id) },
          ?_, rfl, hb1.1, hb1.2, rfl, hb2.1, hb2.2⟩
  have hclips : (generate_flattened_fcpxml full_edl video_sources).clips =
      full_edl.map (fun cut =>
        { name := cut.camera_id
          offset := rationalStr (pyInt (cut.start_time * (FRAME_RATE : ℚ)))
          duration := rationalStr (pyInt ((cut.end_time - cut.start_time) * (FRAME_RATE : ℚ)))
          ref := ((asset_ids video_sources).lookup cut.camera_id) : ClipXml }) := rfl
  rw [hclips, List.getElem?_map, hc, Option.map_some']

/-- Witness for `c2_amended_truncating_timecode`: the concrete cut starting
at `t = 1.016 = 127/125` seconds is emitted with offset `"30/30s"`. -/
theorem c2_amended_truncating_timecode_witness :
    ∃ clip : ClipXml,
      (generate_flattened_fcpxml [⟨127/125, 2, "cam_host"⟩] SOURCE_VIDEOS).clips[0]? = some clip ∧
      clip.offset = "30/30s" := by
  obtain ⟨clip, hget, hoff, _⟩ :=
    c2_amended_truncating_timecode [⟨127/125, 2, "cam_host"⟩] SOURCE_VIDEOS 0
      ⟨127/125, 2, "cam_host"⟩ rfl (by norm_num) (by norm_num)
  refine ⟨clip, hget, ?_⟩
  rw [hoff]
  have h30 : pyInt ((⟨127/125, 2, "cam_host"⟩ : PyCut).start_time * (FRAME_RATE : ℚ)) = 30 := by
    norm_num [pyInt, FRAME_RATE]
  rw [h30]
  decide

/-! ## Claim C10: the declared duration comes from the last-starting cut -/

/-- Claim C10: the flattened output's sequence duration and every camera
asset's duration are the truncated timecode of the `end_time` of the cut
that comes last after sorting by `start_time` (the cut with the largest
`start_time`), not the maximum `end_time` over all cuts; whenever some cut
ends later than that last-starting cut, the declared duration (in seconds)
understates the timeline extent; and an empty edit list produces no output
at all. -/
theorem c10_declared_duration (director_edits : List (Option (List PyCut)))
    (video_sources : List (String × String)) :
    (stitchCuts director_edits = [] →
      run_finishing_pass director_edits video_sources = none) ∧
    (∀ (h : stitchCuts director_edits ≠ []),
      run_finishing_pass director_edits video_sources =
        some (generate_flattened_fcpxml (stitchCuts director_edits) video_sources) ∧
      (generate_flattened_fcpxml (stitchCuts director_edits) video_sources).sequenceDuration =
        rationalStr (pyInt (((stitchCuts director_edits).getLast h).end_time * (FRAME_RATE : ℚ))) ∧
      (∀ a ∈ (generate_flattened_fcpxml (stitchCuts director_edits) video_sources).assets,
        a.duration =
          rationalStr (pyInt (((stitchCuts director_edits).getLast h).end_time * (FRAME_RATE : ℚ)))) ∧
      (∀ c ∈ stitchCuts director_edits, cutLE c ((stitchCuts director_edits).getLast h)) ∧
      (∀ c ∈ stitchCuts director_edits,
        0 ≤ ((stitchCuts director_edits).getLast h).end_time →
        ((stitchCuts director_edits).getLast h).end_time < c.end_time →
        (pyInt (((stitchCuts director_edits).getLast h).end_time * (FRAME_RATE : ℚ)) : ℚ) /
            (FRAME_RATE : ℚ) < c.end_time)) := by
  constructor
  · intro h
    simp only [run_finishing_pass]
    rw [if_pos h]
  · intro h
    have hlast : (stitchCuts director_edits).getLast? =
        some ((stitchCuts director_edits).getLast h) :=
      List.getLast?_eq_getLast _ h
    refine ⟨?_, ?_, ?_, ?_, ?_⟩
    · simp only [run_finishing_pass]
      rw [if_neg h]
    · simp only [generate_flattened_fcpxml, hlast]
    · intro a ha
      have hassets : (generate_flattened_fcpxml (stitchCuts director_edits) video_sources).assets =
          (asset_ids video_sources).map (fun p =>
            { id := p.2, name := p.1,
              duration := rationalStr (pyInt
                ((match (stitchCuts director_edits).getLast? with
                  | some c => c.end_time
                  | none => 0) * (FRAME_RATE : ℚ))) : AssetXml }) := rfl
      rw [hassets] at ha
      obtain ⟨p, _, rfl⟩ := List.mem_map.mp ha
      simp only [hlast]
    · intro c hc
      have hp : (stitchCuts director_edits).Pairwise cutLE :=
        List.sorted_insertionSort cutLE _
      rcases pairwise_getLast?_max hp hlast c hc with heq | hle
      · rw [heq]
        exact le_refl _
      · exact hle
    · intro c hc h0 hlt
      have h30 : (0 : ℚ) < (FRAME_RATE : ℚ) := by norm_num [FRAME_RATE]
      have hb := (pyInt_nonneg_bounds (mul_nonneg h0 (le_of_lt h30))).1
      rw [div_lt_iff₀ h30]
      calc (pyInt (((stitchCuts director_edits).getLast h).end_time * (FRAME_RATE : ℚ)) : ℚ) ≤
            ((stitchCuts director_edits).getLast h).end_time * (FRAME_RATE : ℚ) := hb
        _ < c.end_time * (FRAME_RATE : ℚ) := mul_lt_mul_of_pos_right hlt h30

/-- Witness for `c10_declared_duration`: the empty edit list produces no
output, and for the stitched cuts `[(0,5,cam_wide),(1,2,cam_host)]`
(last-starting cut ends at 2 while an earlier cut ends at 5) the declared
duration `2` understates the extent `5`. -/
theorem c10_declared_duration_witness :
    run_finishing_pass [] SOURCE_VIDEOS = none ∧
    (pyInt (((stitchCuts [some [⟨0, 5, "cam_wide"⟩, ⟨1, 2, "cam_host"⟩]]).getLast
          (by decide)).end_time * (FRAME_RATE : ℚ)) : ℚ) / (FRAME_RATE : ℚ) <
      (⟨0, 5, "cam_wide"⟩ : PyCut).end_time := by
  constructor
  · exact (c10_declared_duration [] SOURCE_VIDEOS).1 (by decide)
  · exact ((c10_declared_duration [some [⟨0, 5, "cam_wide"⟩, ⟨1, 2, "cam_host"⟩]]
        SOURCE_VIDEOS).2 (by decide)).2.2.2.2 ⟨0, 5, "cam_wide"⟩ (by decide) (by decide) (by decide)

/-! ## Claim C9: the word-level speaker lookup -/

/-- Claim C9: `get_speaker_at_time` is total: when no segment's closed
interval contains the timestamp it returns the literal `"unknown"`, and
otherwise it returns, for the first covering segment in list order (so a
timestamp on the shared boundary of two adjacent segments is attributed to
the earlier one), the mapped role with fallback to the raw speaker id. -/
theorem c9_speaker_lookup_total (t : ℚ) (segs : List SpeakerSeg)
    (mapping : List (String × String)) :
    ((∀ s ∈ segs, ¬(s.start ≤ t ∧ t ≤ s.«end»)) →
      get_speaker_at_time t segs mapping = "unknown") ∧
    (∀ pre s post, segs = pre ++ s :: post →
      (∀ p ∈ pre, ¬(p.start ≤ t ∧ t ≤ p.«end»)) →
      s.start ≤ t → t ≤ s.«end» →
      get_speaker_at_time t segs mapping =
        (mapping.lookup s.speaker_id).getD s.speaker_id) := by
  constructor
  · intro hnone
    rw [get_speaker_at_time]
    have hfind : segs.find? (fun seg => decide (seg.start ≤ t ∧ t ≤ seg.«end»)) = none := by
      rw [List.find?_eq_none]
      intro a ha
      simpa using hnone a ha
    rw [hfind]
  · intro pre s post hseg hpre hs1 hs2
    subst hseg
    rw [get_speaker_at_time]
    have hpre' : pre.find? (fun seg => decide (seg.start ≤ t ∧ t ≤ seg.«end»)) = none := by
      rw [List.find?_eq_none]
      intro a ha
      simpa using hpre a ha
    have hfind : (pre ++ s :: post).find?
        (fun seg => decide (seg.start ≤ t ∧ t ≤ seg.«end»)) = some s := by
      rw [List.find?_append, hpre', Option.none_or, List.find?_cons_of_pos]
      simp [hs1, hs2]
    rw [hfind]

/-- Witness for `c9_speaker_lookup_total`: a timestamp covered by no
segment yields `"unknown"`; the boundary timestamp `t = 5` shared by
segments `A = [0,5]` and `B = [5,10]` is attributed to `A`, the earlier
segment in list order, and mapped through the role mapping to `"host"`. -/
theorem c9_speaker_lookup_total_witness :
    get_speaker_at_time 99 [⟨"A", 0, 5, ""⟩] [("A", "host")] = "unknown" ∧
    get_speaker_at_time 5 [⟨"A", 0, 5, ""⟩, ⟨"B", 5, 10, ""⟩]
      [("A", "host"), ("B", "guest")] = "host" := by
  constructor
  · exact (c9_speaker_lookup_total 99 [⟨"A", 0, 5, ""⟩] [("A", "host")]).1
      (by intro s hs; simp at hs; subst hs; norm_num)
  · have h := (c9_speaker_lookup_total 5 [⟨"A", 0, 5, ""⟩, ⟨"B", 5, 10, ""⟩]
        [("A", "host"), ("B", "guest")]).2 [] ⟨"A", 0, 5, ""⟩ [⟨"B", 5, 10, ""⟩]
        rfl (by intro p hp; cases hp) (by norm_num) (by norm_num)
    exact h.trans (by decide)

/-! ## Claim C5: speaker role resolution -/

theorem lookup_cons_self {β : Type} (k : String) (b : β) (es : List (String × β)) :
    ((k, b) :: es).lookup k = some b := by
  simp [List.lookup_cons]

theorem lookup_cons_ne {β : Type} {a k : String} (b : β) (es : List (String × β))
    (h : a ≠ k) : ((k, b) :: es).lookup a = es.lookup a := by
  simp [List.lookup_cons, beq_false_of_ne h]

theorem lookup_of_mem_nodupKeys {β : Type} :
    ∀ {l : List (String × β)}, (l.map Prod.fst).Nodup → ∀ {p : String × β}, p ∈ l →
      l.lookup p.1 = some p.2 := by
  intro l
  induction l with
  | nil => intro _ p hp; cases hp
  | cons q rest ih =>
    intro hnd p hp
    rcases List.mem_cons.mp hp with rfl | hp'
    · exact lookup_cons_self p.1 p.2 rest
    · have hq : q.1 ≠ p.1 := by
        intro hcontra
        have : p.1 ∈ rest.map Prod.fst := List.mem_map_of_mem Prod.fst hp'
        rw [← hcontra] at this
        exact (List.nodup_cons.mp (by simpa using hnd)).1 this
      rw [show (q :: rest) = ((q.1, q.2) :: rest) by rfl,
        lookup_cons_ne q.2 rest (Ne.symm hq)]
      exact ih (List.nodup_cons.mp (by simpa using hnd)).2 hp'

theorem addDur_keys (k : String) (d : ℚ) :
    ∀ (l : List (String × ℚ)),
      (addDur l k d).map Prod.fst =
        if k ∈ l.map Prod.fst then l.map Prod.fst else l.map Prod.fst ++ [k] := by
  intro l
  induction l with
  | nil => simp [addDur]
  | cons q rest ih =>
    obtain ⟨k', v⟩ := q
    by_cases hk : k' = k
    · subst hk
      simp [addDur]
    · rw [show addDur ((k', v) :: rest) k d = (k', v) :: addDur rest k d by
        simp [addDur, hk]]
      by_cases hm : k ∈ rest.map Prod.fst
      · simp only [List.map_cons, ih, if_pos hm]
        rw [if_pos (List.mem_cons_of_mem _ hm)]
      · simp only [List.map_cons, ih, if_neg hm]
        rw [if_neg]
        · simp
        · intro hcontra
          rcases List.mem_cons.mp hcontra with h1 | h2
          · exact hk h1.symm
          · exact hm h2

theorem addDur_keys_nodup {l : List (String × ℚ)} (h : (l.map Prod.fst).Nodup)
    (k : String) (d : ℚ) : ((addDur l k d).map Prod.fst).Nodup := by
  rw [addDur_keys]
  split
  · exact h
  · rename_i hnot
    simp only [List.nodup_append, List.nodup_cons]
    exact ⟨h, by simp, by simpa using hnot⟩

theorem speaker_durations_keys_nodup (speaker_segments : List SpeakerSeg) :
    ((speaker_durations speaker_segments).map Prod.fst).Nodup := by
  rw [speaker_durations]
  suffices h : ∀ (acc : List (String × ℚ)), (acc.map Prod.fst).Nodup →
      ((speaker_segments.foldl
        (fun acc seg => addDur acc seg.speaker_id (seg.«end» - seg.start)) acc).map
          Prod.fst).Nodup by
    exact h [] (by simp)
  induction speaker_segments with
  | nil => intro acc hacc; simpa using hacc
  | cons seg rest ih =>
    intro acc hacc
    rw [List.foldl_cons]
    exact ih _ (addDur_keys_nodup hacc _ _)

theorem addDur_lookup_getD (k : String) (d : ℚ) :
    ∀ (l : List (String × ℚ)) (a : String),
      ((addDur l k d).lookup a).getD 0 =
        (l.lookup a).getD 0 + (if a = k then d else 0) := by
  intro l
  induction l with
  | nil =>
    intro a
    by_cases ha : a = k
    · subst ha
      simp [addDur, lookup_cons_self]
    · rw [show addDur [] k d = [(k, d)] by rfl, lookup_cons_ne d [] ha]
      simp [ha]
  | cons q rest ih =>
    intro a
    obtain ⟨k', v⟩ := q
    by_cases hk : k' = k
    · subst hk
      rw [show addDur ((k', v) :: rest) k' d = (k', v + d) :: rest by simp [addDur]]
      by_cases ha : a = k'
      · subst ha
        rw [lookup_cons_self, lookup_cons_self]
        simp [add_assoc]
      · rw [lookup_cons_ne _ rest ha, lookup_cons_ne v rest ha]
        simp [ha]
    · rw [show addDur ((k', v) :: rest) k d = (k', v) :: addDur rest k d by
        simp [addDur, hk]]
      by_cases ha : a = k'
      · subst ha
        rw [lookup_cons_self, lookup_cons_self]
        simp [hk]
      · rw [lookup_cons_ne v (addDur rest k d) ha, lookup_cons_ne v rest ha]
        exact ih a

/-- The per-speaker total of `(end - start)` over a segment list. -/
theorem speaker_durations_lookup_getD (a : String) :
    ∀ (speaker_segments : List SpeakerSeg) (acc : List (String × ℚ)),
      ((speaker_segments.foldl
          (fun acc seg => addDur acc seg.speaker_id (seg.«end» - seg.start)) acc).lookup
            a).getD 0 =
        (acc.lookup a).getD 0 +
          (((speaker_segments.filter (fun s => decide (s.speaker_id = a))).map
            (fun s => s.«end» - s.start)).sum) := by
  intro speaker_segments
  induction speaker_segments with
  | nil => intro acc; simp
  | cons seg rest ih =>
    intro acc
    rw [List.foldl_cons, ih, addDur_lookup_getD]
    by_cases hsp : seg.speaker_id = a
    · rw [List.filter_cons_of_pos (by simpa using hsp)]
      simp only [if_pos hsp.symm, List.map_cons, List.sum_cons]
      ring
    · rw [List.filter_cons_of_neg (by simpa using hsp)]
      simp only [if_neg (Ne.symm hsp)]
      ring

theorem assign_roles_lookup :
    ∀ (l : List (String × ℚ)) (n i : ℕ) (p : String × ℚ),
      (l.map Prod.fst).Nodup → l[i]? = some p →
      (assign_roles n l).lookup p.1 = some (roleName (n + i)) := by
  intro l
  induction l with
  | nil => intro n i p _ hp; simp at hp
  | cons q rest ih =>
    intro n i p hnd hp
    cases i with
    | zero =>
      have hqp : q = p := by simpa using hp
      rw [show assign_roles n (q :: rest) = (q.1, roleName n) :: assign_roles (n + 1) rest
        from rfl, ← hqp, lookup_cons_self]
      rfl
    | succ i' =>
      rw [List.getElem?_cons_succ] at hp
      have hq : q.1 ≠ p.1 := by
        intro hcontra
        have hmem : p ∈ rest := List.getElem?_mem hp
        have : p.1 ∈ rest.map Prod.fst := List.mem_map_of_mem Prod.fst hmem
        rw [← hcontra] at this
        exact (List.nodup_cons.mp (by simpa using hnd)).1 this
      rw [show assign_roles n (q :: rest) = (q.1, roleName n) :: assign_roles (n + 1) rest
        from rfl, lookup_cons_ne _ _ (Ne.symm hq),
        ih (n + 1) i' p (List.nodup_cons.mp (by simpa using hnd)).2 hp,
        show n + 1 + i' = n + (i' + 1) from by omega]

/-- Claim C5: `create_speaker_role_mapping` sums `(end - start)` per
`speaker_id`, sorts the speakers by descending total duration, and assigns
`"host"` to rank 0, `"guest"` to rank 1, and `"speaker_{i+1}"` to each rank
`i ≥ 2`. -/
theorem c5_speaker_role_resolution (speaker_segments : List SpeakerSeg) :
    (∀ p ∈ sorted_speakers speaker_segments,
      p.2 = ((speaker_segments.filter (fun s => decide (s.speaker_id = p.1))).map
        (fun s => s.«end» - s.start)).sum) ∧
    (sorted_speakers speaker_segments).Pairwise durGE ∧
    (∀ p, (sorted_speakers speaker_segments)[0]? = some p →
      (create_speaker_role_mapping speaker_segments).lookup p.1 = some "host") ∧
    (∀ p, (sorted_speakers speaker_segments)[1]? = some p →
      (create_speaker_role_mapping speaker_segments).lookup p.1 = some "guest") ∧
    (∀ i p, 2 ≤ i → (sorted_speakers speaker_segments)[i]? = some p →
      (create_speaker_role_mapping speaker_segments).lookup p.1 =
        some ("speaker_" ++ toString (i + 1))) := by
  have hperm : List.Perm (sorted_speakers speaker_segments)
      (speaker_durations speaker_segments) :=
    List.perm_insertionSort durGE _
  have hkeys : ((sorted_speakers speaker_segments).map Prod.fst).Nodup :=
    ((hperm.map Prod.fst).nodup_iff).mpr (speaker_durations_keys_nodup speaker_segments)
  refine ⟨?_, List.sorted_insertionSort durGE _, ?_, ?_, ?_⟩
  · intro p hp
    have hp' : p ∈ speaker_durations speaker_segments := hperm.mem_iff.mp hp
    have hl : (speaker_durations speaker_segments).lookup p.1 = some p.2 :=
      lookup_of_mem_nodupKeys (speaker_durations_keys_nodup speaker_segments) hp'
    have := speaker_durations_lookup_getD p.1 speaker_segments []
    rw [speaker_durations] at hl
    rw [hl] at this
    simpa using this
  · intro p hp
    have h := assign_roles_lookup (sorted_speakers speaker_segments) 0 0 p hkeys hp
    rw [create_speaker_role_mapping]
    simpa [roleName] using h
  · intro p hp
    have h := assign_roles_lookup (sorted_speakers speaker_segments) 0 1 p hkeys hp
    rw [create_speaker_role_mapping]
    simpa [roleName] using h
  · intro i p hi hp
    have h := assign_roles_lookup (sorted_speakers speaker_segments) 0 i p hkeys hp
    rw [create_speaker_role_mapping]
    rw [Nat.zero_add] at h
    rw [h, roleName, if_neg (by omega), if_neg (by omega)]

/-- Witness for `c5_speaker_role_resolution`: turns totalling
`{A: 100 s, B: 40 s, C: 10 s}` yield exactly
`{A: "host", B: "guest", C: "speaker_3"}`. -/
theorem c5_speaker_role_resolution_witness :
    (create_speaker_role_mapping
      [⟨"A", 0, 100, ""⟩, ⟨"B", 100, 140, ""⟩, ⟨"C", 140, 150, ""⟩]).lookup "A" =
        some "host" ∧
    (create_speaker_role_mapping
      [⟨"A", 0, 100, ""⟩, ⟨"B", 100, 140, ""⟩, ⟨"C", 140, 150, ""⟩]).lookup "B" =
        some "guest" ∧
    (create_speaker_role_mapping
      [⟨"A", 0, 100, ""⟩, ⟨"B", 100, 140, ""⟩, ⟨"C", 140, 150, ""⟩]).lookup "C" =
        some "speaker_3" := by
  have hss : sorted_speakers [⟨"A", 0, 100, ""⟩, ⟨"B", 100, 140, ""⟩, ⟨"C", 140, 150, ""⟩] =
      [("A", 100), ("B", 40), ("C", 10)] := by
    norm_num [sorted_speakers, speaker_durations, addDur, List.insertionSort,
      List.orderedInsert, durGE]
  refine ⟨?_, ?_, ?_⟩
  · exact (c5_speaker_role_resolution _).2.2.1 ("A", 100) (by rw [hss]; rfl)
  · exact (c5_speaker_role_resolution _).2.2.2.1 ("B", 40) (by rw [hss]; rfl)
  · exact ((c5_speaker_role_resolution _).2.2.2.2 2 ("C", 10) (by norm_num)
      (by rw [hss]; rfl)).trans (by decide)

/-! ## Claim C8: the retrieval-index corpus -/

/-- Claim C8: every document of the retrieval corpus belongs to a
fixed-duration bucket starting at a multiple of 10 seconds; its transcript
is exactly the words with `bucket_start <= word.start < bucket_end`, and
its visual text is the description of the latest (assuming the video log
is sorted by timestamp) entry with `timestamp <= bucket_start`, or the
fixed placeholder `"No visual data."` when no such entry exists. -/
theorem c8_retrieval_corpus (audio_log : List WordItem) (video_log : List VideoItem)
    (hs : video_log.Pairwise (fun a b => a.timestamp ≤ b.timestamp))
    (d : RagDocument) (hd : d ∈ load_and_prepare_documents audio_log video_log) :
    ∃ s : ℤ, (∃ k : ℕ, s = 10 * (k : ℤ)) ∧ d.start_time = s ∧
      d.end_time = (s : ℚ) + CHUNK_DURATION_SECONDS ∧
      ∃ visual : String,
        d.text = mkMemoryText s visual (String.intercalate " "
          ((audio_log.filter (fun w =>
            decide ((s : ℚ) ≤ w.start ∧ w.start < (s : ℚ) + CHUNK_DURATION_SECONDS))).map
              (fun w => w.word))) ∧
        ((∃ v ∈ video_log, v.timestamp ≤ (s : ℚ) ∧ visual = v.description ∧
            ∀ u ∈ video_log, u.timestamp ≤ (s : ℚ) → u.timestamp ≤ v.timestamp) ∨
         (visual = "No visual data." ∧ ∀ v ∈ video_log, ¬ v.timestamp ≤ (s : ℚ))) := by
  rcases hlast : audio_log.getLast? with _ | lastw
  · rw [load_and_prepare_documents, hlast] at hd
    simp at hd
  · rw [load_and_prepare_documents, hlast] at hd
    obtain ⟨s, hsmem, hfs⟩ := List.mem_filterMap.mp hd
    have hks : ∃ k : ℕ, s = 10 * (k : ℤ) := by
      rw [pyRange10] at hsmem
      split at hsmem
      · simp at hsmem
      · obtain ⟨k, _, hk⟩ := List.mem_map.mp hsmem
        exact ⟨k, hk.symm⟩
    rw [chunkDoc?] at hfs
    split at hfs
    · simp at hfs
    · rw [Option.some.injEq] at hfs
      subst hfs
      refine ⟨s, hks, rfl, rfl,
        ((relevant_descriptions video_log s).getLast?).getD "No visual data.", rfl, ?_⟩
      have hrd : (relevant_descriptions video_log s).getLast? =
          ((video_log.filter (fun item => decide (item.timestamp ≤ (s : ℚ)))).getLast?).map
            (fun item => item.description) := by
        rw [relevant_descriptions, List.getLast?_map]
      rcases hv : (video_log.filter (fun item => decide (item.timestamp ≤ (s : ℚ)))).getLast? with
        _ | v
      · refine Or.inr ⟨?_, ?_⟩
        · rw [hrd, hv]
          rfl
        · intro u hu hus
          have : u ∈ video_log.filter (fun item => decide (item.timestamp ≤ (s : ℚ))) :=
            List.mem_filter.mpr ⟨hu, by simpa using hus⟩
          rw [List.getLast?_eq_none_iff.mp hv] at this
          cases this
      · have hvf : v ∈ video_log.filter (fun item => decide (item.timestamp ≤ (s : ℚ))) :=
          List.mem_of_getLast?_eq_some hv
        obtain ⟨hvmem, hvts⟩ := List.mem_filter.mp hvf
        refine Or.inl ⟨v, hvmem, by simpa using hvts, ?_, ?_⟩
        · rw [hrd, hv]
          rfl
        · intro u hu hus
          have humem : u ∈ video_log.filter (fun item => decide (item.timestamp ≤ (s : ℚ))) :=
            List.mem_filter.mpr ⟨hu, by simpa using hus⟩
          have hfil : (video_log.filter
              (fun item => decide (item.timestamp ≤ (s : ℚ)))).Pairwise
                (fun a b => a.timestamp ≤ b.timestamp) :=
            hs.filter _
          rcases pairwise_getLast?_max hfil hv u humem with heq | hle
          · rw [heq]
          · exact hle

/-- Witness for `c8_retrieval_corpus`: the audio log `[("hi", 1, 2)]` with
video log `[(0, "camera shot")]` produces exactly one document, for the
bucket starting at 0, pairing the transcript `"hi"` with the latest
description `"camera shot"`. -/
theorem c8_retrieval_corpus_witness :
    ∃ s : ℤ, (∃ k : ℕ, s = 10 * (k : ℤ)) ∧
      (⟨"[Time: ~0s]\n[VISUAL: camera shot]\n[TRANSCRIPT: hi]", 0, 10⟩ :
        RagDocument).start_time = s ∧
      (⟨"[Time: ~0s]\n[VISUAL: camera shot]\n[TRANSCRIPT: hi]", 0, 10⟩ :
        RagDocument).end_time = (s : ℚ) + CHUNK_DURATION_SECONDS ∧
      ∃ visual : String,
        (⟨"[Time: ~0s]\n[VISUAL: camera shot]\n[TRANSCRIPT: hi]", 0, 10⟩ :
          RagDocument).text = mkMemoryText s visual (String.intercalate " "
            (([(⟨"hi", 1, 2⟩ : WordItem)].filter (fun w =>
              decide ((s : ℚ) ≤ w.start ∧ w.start < (s : ℚ) + CHUNK_DURATION_SECONDS))).map
                (fun w => w.word))) ∧
        ((∃ v ∈ [(⟨0, "camera shot", none⟩ : VideoItem)], v.timestamp ≤ (s : ℚ) ∧
            visual = v.description ∧
            ∀ u ∈ [(⟨0, "camera shot", none⟩ : VideoItem)],
              u.timestamp ≤ (s : ℚ) → u.timestamp ≤ v.timestamp) ∨
         (visual = "No visual data." ∧
          ∀ v ∈ [(⟨0, "camera shot", none⟩ : VideoItem)], ¬ v.timestamp ≤ (s : ℚ))) := by
  have hmem : (⟨"[Time: ~0s]\n[VISUAL: camera shot]\n[TRANSCRIPT: hi]", 0, 10⟩ : RagDocument) ∈
      load_and_prepare_documents [⟨"hi", 1, 2⟩] [⟨0, "camera shot", none⟩] := by
    rw [load_and_prepare_documents]
    simp only [List.getLast?_singleton]
    have hrange : pyRange10 (pyInt ((⟨"hi", 1, 2⟩ : WordItem).«end»)) = [0] := by
      norm_num [pyRange10, pyInt, List.range_succ]
    rw [hrange]
    have h0 : chunkDoc? [⟨"hi", 1, 2⟩] [⟨0, "camera shot", none⟩] 0 =
        some ⟨"[Time: ~0s]\n[VISUAL: camera shot]\n[TRANSCRIPT: hi]", 0, 10⟩ := by
      rw [chunkDoc?]
      norm_num [words_in_chunk, relevant_descriptions, CHUNK_DURATION_SECONDS,
        mkMemoryText, List.filter_cons]
      exact ⟨by decide, by decide⟩
    simp [List.filterMap_cons, h0]
  exact c8_retrieval_corpus [⟨"hi", 1, 2⟩] [⟨0, "camera shot", none⟩]
    (List.pairwise_singleton _ _) _ hmem

end VidPal
